import Mathlib

/-!
Shallow embedding of the DoclingDemo repository
(`QandAFunctions.py` and `ProcessingFunctions.py`) and proofs of the
specification's claims about it.

External collaborators (the LLM call, the text splitter, the tokenizer,
Python's float `.1f` formatter) are passed in as function parameters, as
the spec treats them: opaque capabilities.  Everything that is the
repository's own code is translated line by line.
-/

set_option maxHeartbeats 1000000

/-- Metadata values that can appear in a langchain `Document.metadata`
dict.  The first five constructors are exactly the types accepted by the
`isinstance(value, (str, int, float, bool, type(None)))` test in
`filter_complex_metadata` (`QandAFunctions.py` line 32); floats are opaque
to the claims so they carry an opaque handle, and `mcomplex` stands for
every other Python value (lists, dicts, objects), likewise opaque. -/
inductive MetaValue where
  | mstr (s : String)
  | mint (n : Int)
  | mfloat (handle : Nat)
  | mbool (b : Bool)
  | mnone
  | mcomplex (handle : Nat)
deriving DecidableEq

/-- Test performed by `filter_complex_metadata` on each metadata value:
`isinstance(value, (str, int, float, bool, type(None)))`. -/
def MetaValue.isSimple : MetaValue → Bool
  | .mcomplex _ => false
  | _ => true

/-- A langchain `Document`: page content plus a metadata dict (Python
dicts preserve insertion order, so a list of key-value pairs). -/
structure Document where
  page_content : String
  metadata : List (String × MetaValue)
deriving DecidableEq

/-- Embedding of `filter_complex_metadata` (`QandAFunctions.py` lines
23-39): for each document, keep only the metadata entries whose value is
a simple type, and build a new `Document` with the same `page_content`
and the filtered metadata. -/
def filter_complex_metadata (documents : List Document) : List Document :=
  documents.map fun doc =>
    { page_content := doc.page_content
      metadata := doc.metadata.filter fun kv => kv.2.isSimple }

/-- Embedding of `get_prompt().format(context=..., input=...)`
(`QandAFunctions.py` lines 43-55): the literal template string with
`context` and `input` substituted. -/
def get_prompt_format (context input : String) : String :=
  "Here is the raw content from a PDF document:\n        ---------------------\n        "
    ++ context
    ++ "\n        ---------------------\n        Please answer the following question based ONLY on this content:\n        Question: "
    ++ input
    ++ "\n        Answer:\n        "

/-- Embedding of `load_pdf` (`QandAFunctions.py` lines 58-71).  The PDF
reader is the opaque extraction collaborator: it either yields the list
of per-page texts or fails with an extraction error message.  On success
the source concatenates `page.extract_text() + "\n"` for every page; on
any exception it catches it and returns the ordinary string
`"Error loading PDF: " + str(e)`. -/
def load_pdf (extracted : Except String (List String)) : String :=
  match extracted with
  | Except.ok pages => pages.foldl (fun acc p => acc ++ p ++ "\n") ""
  | Except.error e => "Error loading PDF: " ++ e

/-- Per-chunk outcome conversion inside the loop of `ask_pdf` /
`ask_markdown` (`QandAFunctions.py` lines 101-111): a successful model
response contributes `response.content`; an exception is caught and
contributes `"Error processing chunk {i+1}: {str(e)}"`, where `i` is the
zero-based chunk index. -/
def chunkEntry (i : Nat) (r : Except String String) : String :=
  match r with
  | Except.ok a => a
  | Except.error e => "Error processing chunk " ++ toString (i + 1) ++ ": " ++ e

/-- The accumulation of `chunk_answers` over the enumerated chunks,
starting at index `i` (`QandAFunctions.py` lines 101-111): one entry per
chunk, in chunk order, successes and failures alike. -/
def executeFrom (i : Nat) : List (Except String String) → List String
  | [] => []
  | r :: rest => chunkEntry i r :: executeFrom (i + 1) rest

/-- The labelling comprehension of the aggregation step
(`QandAFunctions.py` line 114): each answer at index `i` becomes
`"Chunk {i+1}: {ans}"`. -/
def labelFrom (i : Nat) : List String → List String
  | [] => []
  | a :: rest => ("Chunk " ++ toString (i + 1) ++ ": " ++ a) :: labelFrom (i + 1) rest

/-- Embedding of the `combined_answer` join (`QandAFunctions.py` line
114): label every entry and join with a blank-line separator. -/
def aggregate (answers : List String) : String :=
  String.intercalate "\n\n" (labelFrom 0 answers)

/-- The full per-chunk execution + aggregation pipeline of
`ask_pdf` / `ask_markdown`, as a function of the ordered per-chunk model
outcomes. -/
def reportOutput (outcomes : List (Except String String)) : String :=
  aggregate (executeFrom 0 outcomes)

/-- Result dictionary returned by `ask_pdf` / `ask_markdown`: the
`"answer"` entry, plus the `"error"` entry that only the outer exception
branch would populate. -/
structure QAResult where
  answer : String
  error : Option String
deriving DecidableEq

/-- Embedding of `ask_pdf` (`QandAFunctions.py` lines 74-120).  The
`RecursiveCharacterTextSplitter` is the opaque splitter collaborator
(`splitter chunk_size chunk_overlap content`), invoked with
`chunk_size=15000, chunk_overlap=500`; the LLM is the opaque `model`
collaborator taking the formatted prompt.  Each chunk is queried
separately, per-chunk exceptions become `"Error processing chunk ..."`
entries, and the entries are labelled and joined.  The outer `except`
branch is unreachable on the non-exceptional path, so `error` is
`none`. -/
def ask_pdf (splitter : Nat → Nat → String → List String)
    (model : String → Except String String)
    (content question : String) : QAResult :=
  let chunks := splitter 15000 500 content
  let outcomes := chunks.map fun c => model (get_prompt_format c question)
  { answer := reportOutput outcomes, error := none }

/-- Embedding of `ask_markdown` (`QandAFunctions.py` lines 138-184),
written out separately because the source duplicates the whole body of
`ask_pdf`: same `chunk_size=15000, chunk_overlap=500`, same prompt
template, same per-chunk error conversion, same aggregation. -/
def ask_markdown (splitter : Nat → Nat → String → List String)
    (model : String → Except String String)
    (content question : String) : QAResult :=
  let chunks := splitter 15000 500 content
  let outcomes := chunks.map fun c => model (get_prompt_format c question)
  { answer := reportOutput outcomes, error := none }

/-- Spec-side rendering rule, written from the spec's words for claim
C2: the entry for chunk `i` (zero-based) renders as
`"Chunk <i+1>: <answer>"` on success and
`"Chunk <i+1>: Error processing chunk <i+1>: <error_message>"` on
failure. -/
def renderEntry (i : Nat) (r : Except String String) : String :=
  match r with
  | Except.ok a => "Chunk " ++ toString (i + 1) ++ ": " ++ a
  | Except.error e =>
      "Chunk " ++ toString (i + 1) ++ ": Error processing chunk "
        ++ toString (i + 1) ++ ": " ++ e

/-- Spec-side rendering of a whole outcome list starting at index `i`. -/
def renderFrom (i : Nat) : List (Except String String) → List String
  | [] => []
  | r :: rest => renderEntry i r :: renderFrom (i + 1) rest

/-- A window: a contiguous slice of the document body together with its
zero-based start offset within the parent body.  The body is modelled as
the sequence of its characters. -/
structure Window where
  start : Nat
  text : List Char
deriving DecidableEq

/-- Modelled from the spec: the loop of the Windowing Engine's `split`
algorithm, which is not in the repository's own sources (`ask_pdf` only
configures the external `RecursiveCharacterTextSplitter`,
`QandAFunctions.py` lines 83-88).  Spec 4.1: start at offset 0; each
window spans `[offset, offset + max_window_size)` clamped to body
length; advance the offset by the stride
`max_window_size - overlap_size`; stop once `offset >= length(body)`.
The fuel argument only bounds the recursion; with stride `s >= 1`,
`body.length + 1` units are always enough. -/
def windowsGo (body : List Char) (maxwN s : Nat) : Nat → Nat → List Window
  | 0, _ => []
  | fuel + 1, offset =>
      if offset < body.length then
        ⟨offset, (body.drop offset).take maxwN⟩ ::
          windowsGo body maxwN s fuel (offset + s)
      else []

/-- Modelled from the spec: the Windowing Engine contract (spec 4.1),
absent from the repository's own sources.  Validation: fails with
`ConfigError` when `max_window_size <= 0`, `overlap_size < 0` or
`overlap_size >= max_window_size`, before any window is emitted;
otherwise emits the windows of the spec's algorithm. -/
def split (body : List Char) (max_window_size overlap_size : Int) :
    Except String (List Window) :=
  if max_window_size ≤ 0 ∨ overlap_size < 0 ∨ overlap_size ≥ max_window_size then
    Except.error "ConfigError"
  else
    Except.ok (windowsGo body max_window_size.toNat
      (max_window_size - overlap_size).toNat (body.length + 1) 0)

/-- Terminal artifact of a pipeline run: the rendered report plus the
number of model invocations that were made (the Chunk Query Executor
makes exactly one call per window). -/
structure RunReport where
  report : String
  model_calls : Nat
deriving DecidableEq

/-- Modelled from the spec: the Pipeline Orchestrator (spec 4.5),
composing the spec-modelled Windowing Engine with the repository's own
per-chunk execution and aggregation code.  A `ConfigError` from `split`
propagates with no report and zero model calls; otherwise every window
is queried once and the outcomes are aggregated. -/
def run (body : List Char) (question : String)
    (max_window_size overlap_size : Int)
    (model : String → Except String String) : Except String RunReport :=
  match split body max_window_size overlap_size with
  | Except.error e => Except.error e
  | Except.ok ws =>
      let outcomes := ws.map fun w =>
        model (get_prompt_format (String.mk w.text) question)
      Except.ok ⟨reportOutput outcomes, outcomes.length⟩

/-- Continuation-byte test of the UTF-8 decoder: `0x80 <= b <= 0xBF`. -/
def isCont (b : Nat) : Bool := 128 ≤ b && b ≤ 191

/-- Allowed second byte of a three-byte UTF-8 sequence with lead `b`
(0xE0 excludes overlongs, 0xED excludes surrogates). -/
def cont3 (b c1 : Nat) : Bool :=
  if b = 224 then 160 ≤ c1 && c1 ≤ 191
  else if b = 237 then 128 ≤ c1 && c1 ≤ 159
  else isCont c1

/-- Allowed second byte of a four-byte UTF-8 sequence with lead `b`
(0xF0 excludes overlongs, 0xF4 caps at U+10FFFF). -/
def cont4 (b c1 : Nat) : Bool :=
  if b = 240 then 144 ≤ c1 && c1 ≤ 191
  else if b = 244 then 128 ≤ c1 && c1 ≤ 143
  else isCont c1

/-- One step of the UTF-8 decoder with `errors='ignore'`: given the lead
byte `b` and the remaining bytes, return how many extra bytes are
consumed and the decoded scalar value, or `none` when the sequence at
`b` is ill-formed and its maximal valid subpart (CPython's skip unit) is
dropped. -/
def utf8Step (b : Nat) (rest : List Nat) : Nat × Option Nat :=
  if b < 128 then (0, some b)
  else if b < 194 then (0, none)
  else if b < 224 then
    match rest with
    | c1 :: _ =>
        if isCont c1 then (1, some ((b - 192) * 64 + (c1 - 128))) else (0, none)
    | [] => (0, none)
  else if b < 240 then
    match rest with
    | c1 :: rest1 =>
        if cont3 b c1 then
          match rest1 with
          | c2 :: _ =>
              if isCont c2 then
                (2, some (((b - 224) * 64 + (c1 - 128)) * 64 + (c2 - 128)))
              else (1, none)
          | [] => (1, none)
        else (0, none)
    | [] => (0, none)
  else if b < 245 then
    match rest with
    | c1 :: rest1 =>
        if cont4 b c1 then
          match rest1 with
          | c2 :: rest2 =>
              if isCont c2 then
                match rest2 with
                | c3 :: _ =>
                    if isCont c3 then
                      (3, some ((((b - 240) * 64 + (c1 - 128)) * 64
                        + (c2 - 128)) * 64 + (c3 - 128)))
                    else (2, none)
                | [] => (2, none)
              else (1, none)
          | [] => (1, none)
        else (0, none)
    | [] => (0, none)
  else (0, none)

/-- Fuel-indexed loop of the lossy UTF-8 decoder.  Every iteration
consumes at least the lead byte, so fuel equal to the byte count always
suffices. -/
def utf8Go : Nat → List Nat → List Char
  | 0, _ => []
  | _, [] => []
  | fuel + 1, b :: rest =>
      match utf8Step b rest with
      | (k, some n) => Char.ofNat n :: utf8Go fuel (rest.drop k)
      | (k, none) => utf8Go fuel (rest.drop k)

/-- Embedding of `raw_pdf_content.decode('utf-8', errors='ignore')`
(`ProcessingFunctions.py` line 65): decode the bytes as UTF-8, dropping
every ill-formed subsequence instead of failing.  Total by
construction: decoding never fails. -/
def utf8DecodeIgnore (bytes : List Nat) : String :=
  String.mk (utf8Go bytes.length bytes)

namespace CountTokens

/-- Embedding of `CountTokens.count_pdf_tokens`
(`ProcessingFunctions.py` lines 53-67): read the raw bytes, decode them
lossily to text, tokenize with the opaque `encoding` collaborator and
return the number of tokens. -/
def count_pdf_tokens (raw_pdf_content : List Nat)
    (encoding : String → List Nat) : Nat :=
  (encoding (utf8DecodeIgnore raw_pdf_content)).length

/-- Embedding of `CountTokens.count_markdown_tokens`
(`ProcessingFunctions.py` lines 69-80): tokenize the markdown string and
return the number of tokens. -/
def count_markdown_tokens (markdown_content : String)
    (encoding : String → List Nat) : Nat :=
  (encoding markdown_content).length

/-- Embedding of `CountTokens.format_number`
(`ProcessingFunctions.py` lines 35-51).  The Python expression
`f"{num / d:.1f}"` (float division followed by one-decimal float
formatting) is the opaque `fix1` collaborator, applied to the numerator
and divisor of the branch that fires. -/
def format_number (fix1 : Int → Int → String) (num : Int) : String :=
  if num ≥ 1000000000 then fix1 num 1000000000 ++ "B"
  else if num ≥ 1000000 then fix1 num 1000000 ++ "M"
  else if num ≥ 1000 then fix1 num 1000 ++ "K"
  else toString num

end CountTokens

/-- Exact one-decimal rendering of `num / den` (round half to even) for
non-negative inputs.  It agrees with Python's `f"{num / den:.1f}"`
whenever the quotient at one decimal is exact, as in the spec's worked
examples (1.5 and 2.3). -/
def fix1Exact (num den : Int) : String :=
  let t := num * 10
  let q := t / den
  let r := t % den
  let rounded :=
    if 2 * r > den then q + 1
    else if 2 * r < den then q
    else if q % 2 = 0 then q else q + 1
  toString (rounded / 10) ++ "." ++ toString (rounded % 10)

/-- Concrete document list used to witness the metadata-filter claim. -/
def sampleDocs : List Document :=
  [⟨"hello", [("title", MetaValue.mstr "t"), ("blob", MetaValue.mcomplex 0),
    ("page", MetaValue.mint 3)]⟩]

theorem executeFrom_getElem? (l : List (Except String String)) :
    ∀ i j, (executeFrom i l)[j]? = (l[j]?).map fun r => chunkEntry (i + j) r := by
  induction l with
  | nil => intro i j; simp [executeFrom]
  | cons r rest ih =>
      intro i j
      cases j with
      | zero => simp [executeFrom]
      | succ n =>
          simp only [executeFrom, List.getElem?_cons_succ, ih (i + 1) n]
          have h : i + 1 + n = i + (n + 1) := by omega
          rw [h]

theorem executeFrom_length (l : List (Except String String)) :
    ∀ i, (executeFrom i l).length = l.length := by
  induction l with
  | nil => intro i; simp [executeFrom]
  | cons r rest ih => intro i; simp [executeFrom, ih (i + 1)]

theorem labelFrom_getElem? (l : List String) :
    ∀ i j, (labelFrom i l)[j]? =
      (l[j]?).map fun a => "Chunk " ++ toString (i + j + 1) ++ ": " ++ a := by
  induction l with
  | nil => intro i j; simp [labelFrom]
  | cons a rest ih =>
      intro i j
      cases j with
      | zero => simp [labelFrom]
      | succ n =>
          simp only [labelFrom, List.getElem?_cons_succ, ih (i + 1) n]
          have h : i + 1 + n = i + (n + 1) := by omega
          rw [h]

theorem labelFrom_length (l : List String) :
    ∀ i, (labelFrom i l).length = l.length := by
  induction l with
  | nil => intro i; simp [labelFrom]
  | cons a rest ih => intro i; simp [labelFrom, ih (i + 1)]

theorem renderFrom_length (l : List (Except String String)) :
    ∀ i, (renderFrom i l).length = l.length := by
  induction l with
  | nil => intro i; simp [renderFrom]
  | cons r rest ih => intro i; simp [renderFrom, ih (i + 1)]

theorem labelFrom_executeFrom (l : List (Except String String)) :
    ∀ i, labelFrom i (executeFrom i l) = renderFrom i l := by
  induction l with
  | nil => intro i; simp [executeFrom, labelFrom, renderFrom]
  | cons r rest ih =>
      intro i
      simp only [executeFrom, labelFrom, renderFrom, ih (i + 1)]
      cases r with
      | ok a => rfl
      | error e =>
          have hlit : (": " : String) ++ "Error processing chunk "
              = ": Error processing chunk " := rfl
          simp only [chunkEntry, renderEntry, ← hlit, String.append_assoc]

/-- C1: if the model invocation fails with message `e` while processing
chunk `i`, the pipeline of `ask_pdf` / `ask_markdown` converts that
error into the failure entry for index `i` carrying the message, every
chunk (failing or not) still has exactly its own entry, every successful
sibling chunk `j` contributes its answer unchanged, and every chunk's
entry appears as a labelled line of the final report: one failing chunk
never aborts processing of sibling chunks. -/
theorem chunk_failure_isolated (outcomes : List (Except String String))
    (i : Nat) (e : String) (h : outcomes[i]? = some (Except.error e)) :
    (executeFrom 0 outcomes)[i]? =
        some ("Error processing chunk " ++ toString (i + 1) ++ ": " ++ e) ∧
    (executeFrom 0 outcomes).length = outcomes.length ∧
    (∀ (j : Nat) (a : String), outcomes[j]? = some (Except.ok a) →
      (executeFrom 0 outcomes)[j]? = some a) ∧
    (labelFrom 0 (executeFrom 0 outcomes)).length = outcomes.length ∧
    (∀ (j : Nat) (r : Except String String), outcomes[j]? = some r →
      (labelFrom 0 (executeFrom 0 outcomes))[j]? =
        some ("Chunk " ++ toString (j + 1) ++ ": " ++ chunkEntry j r)) := by
  refine ⟨?_, ?_, ?_, ?_, ?_⟩
  · rw [executeFrom_getElem? outcomes 0 i, h]
    simp [chunkEntry]
  · exact executeFrom_length outcomes 0
  · intro j a hj
    rw [executeFrom_getElem? outcomes 0 j, hj]
    simp [chunkEntry]
  · rw [labelFrom_length, executeFrom_length]
  · intro j r hj
    rw [labelFrom_getElem? (executeFrom 0 outcomes) 0 j,
      executeFrom_getElem? outcomes 0 j, hj]
    simp

/-- Witness for C1 at the spec's three-window example: the failing
middle chunk yields the error entry, the first chunk keeps its answer,
and the report has three labelled lines. -/
theorem chunk_failure_isolated_w :
    (executeFrom 0 [Except.ok "a1", Except.error "boom", Except.ok "a3"])[1]? =
        some ("Error processing chunk " ++ toString (1 + 1) ++ ": " ++ "boom") ∧
    (executeFrom 0 [Except.ok "a1", Except.error "boom", Except.ok "a3"])[0]? =
        some "a1" ∧
    (labelFrom 0 (executeFrom 0
        [Except.ok "a1", Except.error "boom", Except.ok "a3"])).length = 3 := by
  have h := chunk_failure_isolated
    [Except.ok "a1", Except.error "boom", Except.ok "a3"] 1 "boom" rfl
  exact ⟨h.1, h.2.2.1 0 "a1" rfl, h.2.2.2.1⟩

/-- C2: the aggregated report of the chunk pipeline has exactly one
entry per chunk in the original order, rendered as
`"Chunk <i+1>: <answer>"` for a success and
`"Chunk <i+1>: Error processing chunk <i+1>: <error_message>"` for a
failure, joined with a blank-line separator, and no entry is ever
dropped. -/
theorem report_rendering (outcomes : List (Except String String)) :
    reportOutput outcomes = String.intercalate "\n\n" (renderFrom 0 outcomes) ∧
    (renderFrom 0 outcomes).length = outcomes.length := by
  constructor
  · unfold reportOutput aggregate
    rw [labelFrom_executeFrom]
  · exact renderFrom_length outcomes 0

/-- C9: `ask_pdf` and `ask_markdown` return the same answer on the
non-exceptional path: both split with `chunk_size=15000,
chunk_overlap=500`, send the same formatted prompt per chunk to the
model, convert per-chunk errors the same way, and aggregate
identically. -/
theorem ask_pdf_markdown_agree (splitter : Nat → Nat → String → List String)
    (model : String → Except String String) (content question : String) :
    (ask_pdf splitter model content question).answer
        = (ask_markdown splitter model content question).answer ∧
    ask_pdf splitter model content question =
      { answer := reportOutput ((splitter 15000 500 content).map
          fun c => model (get_prompt_format c question)), error := none } ∧
    ask_markdown splitter model content question =
      { answer := reportOutput ((splitter 15000 500 content).map
          fun c => model (get_prompt_format c question)), error := none } :=
  ⟨rfl, rfl, rfl⟩

/-- Counterexample to C5: when text extraction fails with message
`"boom"`, `load_pdf` does not propagate the error to the caller — it
catches it and returns the ordinary string `"Error loading PDF: boom"`,
indistinguishable in kind from a successfully extracted body. -/
theorem load_pdf_swallows_cex :
    load_pdf (Except.error "boom") = "Error loading PDF: boom" := rfl

/-- C5 as amended: for every extraction failure, `load_pdf` catches the
error and converts it into the ordinary return value
`"Error loading PDF: " ++ message` instead of propagating it. -/
theorem load_pdf_swallows (e : String) :
    load_pdf (Except.error e) = "Error loading PDF: " ++ e := rfl

/-- C10: `filter_complex_metadata` returns a list of the same length
and order whose `i`-th document keeps the `i`-th input's
`page_content` and exactly its simple-typed metadata entries (in
order), and every metadata value in every output document is of a
simple type. -/
theorem filter_metadata_spec (docs : List Document) :
    (filter_complex_metadata docs).length = docs.length ∧
    (∀ (i : Nat) (d : Document), docs[i]? = some d →
      (filter_complex_metadata docs)[i]? =
        some { page_content := d.page_content
               metadata := d.metadata.filter fun kv => kv.2.isSimple }) ∧
    (∀ d, d ∈ filter_complex_metadata docs →
      ∀ kv, kv ∈ d.metadata → kv.2.isSimple = true) := by
  refine ⟨?_, ?_, ?_⟩
  · simp [filter_complex_metadata]
  · intro i d hi
    simp only [filter_complex_metadata, List.getElem?_map, hi, Option.map_some']
  · intro d hd kv hkv
    simp only [filter_complex_metadata, List.mem_map] at hd
    rcases hd with ⟨d0, _, rfl⟩
    simp only at hkv
    exact (List.mem_filter.mp hkv).2

/-- Witness for C10 on a document whose metadata mixes simple and
complex values: the complex entry is removed, the simple entries and
the page content survive in order. -/
theorem filter_metadata_spec_w :
    (filter_complex_metadata sampleDocs)[0]? =
        some { page_content := "hello"
               metadata := [("title", MetaValue.mstr "t"),
                 ("page", MetaValue.mint 3)] } ∧
    (filter_complex_metadata sampleDocs).length = 1 := by
  have h := filter_metadata_spec sampleDocs
  exact ⟨h.2.1 0 ⟨"hello", [("title", MetaValue.mstr "t"),
    ("blob", MetaValue.mcomplex 0), ("page", MetaValue.mint 3)]⟩ rfl, h.1⟩

theorem windowsGo_mem_text (body : List Char) (maxwN s : Nat) :
    ∀ fuel offset w, w ∈ windowsGo body maxwN s fuel offset →
      w.text = (body.drop w.start).take maxwN := by
  intro fuel
  induction fuel with
  | zero => intro offset w hw; simp [windowsGo] at hw
  | succ n ih =>
      intro offset w hw
      by_cases h : offset < body.length
      · simp only [windowsGo, if_pos h, List.mem_cons] at hw
        rcases hw with rfl | hw
        · rfl
        · exact ih (offset + s) w hw
      · simp [windowsGo, if_neg h] at hw

theorem windowsGo_mem_start_lt (body : List Char) (maxwN s : Nat) :
    ∀ fuel offset w, w ∈ windowsGo body maxwN s fuel offset →
      w.start < body.length := by
  intro fuel
  induction fuel with
  | zero => intro offset w hw; simp [windowsGo] at hw
  | succ n ih =>
      intro offset w hw
      by_cases h : offset < body.length
      · simp only [windowsGo, if_pos h, List.mem_cons] at hw
        rcases hw with rfl | hw
        · exact h
        · exact ih (offset + s) w hw
      · simp [windowsGo, if_neg h] at hw

theorem windowsGo_mem_start_mult (body : List Char) (maxwN s : Nat) :
    ∀ fuel offset w, w ∈ windowsGo body maxwN s fuel offset →
      ∃ k, w.start = offset + k * s := by
  intro fuel
  induction fuel with
  | zero => intro offset w hw; simp [windowsGo] at hw
  | succ n ih =>
      intro offset w hw
      by_cases h : offset < body.length
      · simp only [windowsGo, if_pos h, List.mem_cons] at hw
        rcases hw with rfl | hw
        · refine ⟨0, ?_⟩
          show offset = offset + 0 * s
          omega
        · rcases ih (offset + s) w hw with ⟨k, hk⟩
          refine ⟨k + 1, ?_⟩
          rw [hk]
          ring
      · simp [windowsGo, if_neg h] at hw

theorem windowsGo_cover (body : List Char) (maxwN s : Nat)
    (hs : 1 ≤ s) (hsm : s ≤ maxwN) :
    ∀ fuel offset, body.length < fuel + offset →
      ∀ p, offset ≤ p → p < body.length →
        ∃ w ∈ windowsGo body maxwN s fuel offset,
          w.start ≤ p ∧ p < w.start + w.text.length := by
  intro fuel
  induction fuel with
  | zero => intro offset hinv p hop hp; omega
  | succ n ih =>
      intro offset hinv p hop hp
      have hoff : offset < body.length := lt_of_le_of_lt hop hp
      by_cases hps : p < offset + s
      · refine ⟨⟨offset, (body.drop offset).take maxwN⟩, ?_, hop, ?_⟩
        · simp [windowsGo, if_pos hoff]
        · show p < offset + ((body.drop offset).take maxwN).length
          simp only [List.length_take, List.length_drop]
          omega
      · rcases ih (offset + s) (by omega) p (by omega) hp with ⟨w, hw, h1, h2⟩
        refine ⟨w, ?_, h1, h2⟩
        simp only [windowsGo, if_pos hoff, List.mem_cons]
        exact Or.inr hw

/-- C3: for every body and valid configuration, `split` emits windows
whose offsets are the multiples of the stride
`max_window_size - overlap_size`, each spanning
`[offset, offset + max_window_size)` clamped to the body length,
stopping once the offset reaches the body length; the union of the
window spans is exactly `[0, length(body))` — no gap; and on a body of
length 100 with `max_window_size=40, overlap_size=10` the windows
start at offsets `[0, 30, 60, 90]`, the last spanning `[90, 100)`. -/
theorem split_windows_spec (body : List Char)
    (max_window_size overlap_size : Int)
    (hmax : 0 < max_window_size) (hov0 : 0 ≤ overlap_size)
    (hov : overlap_size < max_window_size) :
    ∃ ws, split body max_window_size overlap_size = Except.ok ws ∧
      (∀ w ∈ ws, ∃ k, w.start = k * (max_window_size - overlap_size).toNat) ∧
      (∀ w ∈ ws, w.start < body.length) ∧
      (∀ w ∈ ws, w.text = (body.drop w.start).take max_window_size.toNat) ∧
      (∀ p : Nat, p < body.length ↔
        ∃ w ∈ ws, w.start ≤ p ∧ p < w.start + w.text.length) ∧
      split (List.replicate 100 'a') 40 10 = Except.ok
        [⟨0, List.replicate 40 'a'⟩, ⟨30, List.replicate 40 'a'⟩,
         ⟨60, List.replicate 40 'a'⟩, ⟨90, List.replicate 10 'a'⟩] := by
  have hcond : ¬ (max_window_size ≤ 0 ∨ overlap_size < 0
      ∨ overlap_size ≥ max_window_size) := by omega
  have hs : 1 ≤ (max_window_size - overlap_size).toNat := by omega
  have hsm : (max_window_size - overlap_size).toNat ≤ max_window_size.toNat := by
    omega
  refine ⟨windowsGo body max_window_size.toNat
    (max_window_size - overlap_size).toNat (body.length + 1) 0, ?_, ?_, ?_, ?_, ?_, ?_⟩
  · simp [split, if_neg hcond]
  · intro w hw
    rcases windowsGo_mem_start_mult body _ _ _ _ w hw with ⟨k, hk⟩
    exact ⟨k, by omega⟩
  · intro w hw
    exact windowsGo_mem_start_lt body _ _ _ _ w hw
  · intro w hw
    exact windowsGo_mem_text body _ _ _ _ w hw
  · intro p
    constructor
    · intro hp
      exact windowsGo_cover body _ _ hs hsm (body.length + 1) 0 (by omega) p
        (Nat.zero_le p) hp
    · rintro ⟨w, hw, h1, h2⟩
      have ht := windowsGo_mem_text body _ _ _ _ w hw
      have hlt := windowsGo_mem_start_lt body _ _ _ _ w hw
      have hlen : w.text.length = min max_window_size.toNat
          (body.length - w.start) := by
        rw [ht]
        simp [List.length_take, List.length_drop]
      omega
  · rfl

/-- Witness for C3: the spec's worked example, a body of 100 characters
with `max_window_size=40, overlap_size=10`. -/
theorem split_windows_spec_w :
    split (List.replicate 100 'a') 40 10 = Except.ok
      [⟨0, List.replicate 40 'a'⟩, ⟨30, List.replicate 40 'a'⟩,
       ⟨60, List.replicate 40 'a'⟩, ⟨90, List.replicate 10 'a'⟩] := by
  obtain ⟨ws, h⟩ := split_windows_spec (List.replicate 100 'a') 40 10
    (by decide) (by decide) (by decide)
  exact h.2.2.2.2.2

/-- C4: with `max_window_size <= 0`, `overlap_size < 0` or
`overlap_size >= max_window_size`, the pipeline fails with
`ConfigError` before any window is emitted and before any model
invocation: the run produces an error, hence no (partial) report and
zero model calls. -/
theorem run_config_error (body : List Char) (question : String)
    (max_window_size overlap_size : Int)
    (model : String → Except String String)
    (h : max_window_size ≤ 0 ∨ overlap_size < 0
      ∨ overlap_size ≥ max_window_size) :
    run body question max_window_size overlap_size model
      = Except.error "ConfigError" := by
  unfold run split
  rw [if_pos h]

/-- Witness for C4 at `max_window_size = 0` on an arbitrary body,
question and model. -/
theorem run_config_error_w :
    run ['h', 'i'] "q" 0 0 (fun _ => Except.error "never called")
      = Except.error "ConfigError" :=
  run_config_error ['h', 'i'] "q" 0 0 _ (by decide)

/-- Counterexample to C6: under the spec's own windowing algorithm the
claim fails at two concrete instances.  A body of length 35 with
`max_window_size=40, overlap_size=10` (stride 30) has length at most
`max_window_size`, yet two windows are produced, at offsets 0 and 30 —
not one window equal to the whole body.  And the empty body yields zero
windows, not one, because the loop stops as soon as
`offset >= length(body)`. -/
theorem split_single_window_cex :
    split (List.replicate 35 'a') 40 10 = Except.ok
      [⟨0, List.replicate 35 'a'⟩, ⟨30, List.replicate 5 'a'⟩] ∧
    split (List.replicate 35 'a') 40 10 ≠ Except.ok
      [⟨0, List.replicate 35 'a'⟩] ∧
    split ([] : List Char) 40 10 = Except.ok [] := by
  refine ⟨rfl, ?_, rfl⟩
  intro h
  rw [show split (List.replicate 35 'a') 40 10 = Except.ok
    [⟨0, List.replicate 35 'a'⟩, ⟨30, List.replicate 5 'a'⟩] from rfl] at h
  simp at h

/-- C6 as amended: for every nonempty body whose length is at most the
stride `max_window_size - overlap_size` (not merely at most
`max_window_size`), and every valid configuration, `split` produces
exactly one window equal to the whole body. -/
theorem split_single_window (body : List Char)
    (max_window_size overlap_size : Int)
    (hmax : 0 < max_window_size) (hov0 : 0 ≤ overlap_size)
    (hov : overlap_size < max_window_size) (hne : body ≠ [])
    (hlen : (body.length : Int) ≤ max_window_size - overlap_size) :
    split body max_window_size overlap_size = Except.ok [⟨0, body⟩] := by
  have hcond : ¬ (max_window_size ≤ 0 ∨ overlap_size < 0
      ∨ overlap_size ≥ max_window_size) := by omega
  have hpos : 0 < body.length := List.length_pos.mpr hne
  have hsle : body.length ≤ (max_window_size - overlap_size).toNat := by omega
  have hmle : body.length ≤ max_window_size.toNat := by omega
  obtain ⟨n, hn⟩ : ∃ n, body.length = n + 1 :=
    ⟨body.length - 1, by omega⟩
  simp only [split, if_neg hcond, hn]
  have h1 : windowsGo body max_window_size.toNat
      (max_window_size - overlap_size).toNat (n + 1 + 1) 0 =
      ⟨0, (body.drop 0).take max_window_size.toNat⟩ ::
        windowsGo body max_window_size.toNat
          (max_window_size - overlap_size).toNat (n + 1)
          (0 + (max_window_size - overlap_size).toNat) := by
    rw [windowsGo, if_pos (by omega)]
  have h2 : windowsGo body max_window_size.toNat
      (max_window_size - overlap_size).toNat (n + 1)
      (0 + (max_window_size - overlap_size).toNat) = [] := by
    rw [windowsGo, if_neg (by omega)]
  rw [h1, h2, List.drop_zero, List.take_of_length_le hmle]

/-- Witness for C6 (amended) on a two-character body with
`max_window_size=40, overlap_size=10`. -/
theorem split_single_window_w :
    split ['h', 'i'] 40 10 = Except.ok [⟨0, ['h', 'i']⟩] :=
  split_single_window ['h', 'i'] 40 10 (by decide) (by decide) (by decide)
    (by decide) (by decide)

/-- C7: the Token Accountant decodes the raw bytes lossily before
tokenization — a byte that cannot start a UTF-8 sequence (a stray
continuation byte, an overlong lead 0xC0/0xC1, or a byte above 0xF4) is
dropped rather than failing — and both reported counts are the length
of `tokenizer.encode` applied to the respective text (the lossily
decoded raw text, and the converted markdown text). -/
theorem token_counts_spec (encoding : String → List Nat)
    (bytes : List Nat) (markdown_content : String) :
    CountTokens.count_pdf_tokens bytes encoding
        = (encoding (utf8DecodeIgnore bytes)).length ∧
    CountTokens.count_markdown_tokens markdown_content encoding
        = (encoding markdown_content).length ∧
    (∀ b : Nat, 128 ≤ b → b < 194 →
      utf8DecodeIgnore (b :: bytes) = utf8DecodeIgnore bytes) ∧
    (∀ b : Nat, 245 ≤ b →
      utf8DecodeIgnore (b :: bytes) = utf8DecodeIgnore bytes) := by
  refine ⟨rfl, rfl, ?_, ?_⟩
  · intro b hb1 hb2
    have h1 : ¬ b < 128 := by omega
    simp only [utf8DecodeIgnore, List.length_cons, utf8Go, utf8Step,
      if_neg h1, if_pos hb2, List.drop_zero]
  · intro b hb
    have h1 : ¬ b < 128 := by omega
    have h2 : ¬ b < 194 := by omega
    have h3 : ¬ b < 224 := by omega
    have h4 : ¬ b < 240 := by omega
    have h5 : ¬ b < 245 := by omega
    simp only [utf8DecodeIgnore, List.length_cons, utf8Go, utf8Step,
      if_neg h1, if_neg h2, if_neg h3, if_neg h4, if_neg h5, List.drop_zero]

/-- Witness for C7: the invalid lead byte 0xFF is dropped in front of
an ASCII byte. -/
theorem token_counts_spec_w :
    utf8DecodeIgnore [255, 72] = utf8DecodeIgnore [72] :=
  (token_counts_spec (fun _ => []) [72] "").2.2.2 255 (by decide)

/-- C8: `format_number` renders `num` as the one-decimal value of
`num / 1e9` suffixed `B` when `num >= 1_000_000_000`, of `num / 1e6`
suffixed `M` when `1_000_000 <= num < 1_000_000_000`, of `num / 1e3`
suffixed `K` when `1_000 <= num < 1_000_000`, and as the plain integer
string otherwise; in particular 1_500_000 renders as `"1.5M"`, 999 as
`"999"` and 2_300_000_000 as `"2.3B"` (the worked examples are exact at
one decimal, where the exact renderer agrees with Python's float
`.1f`). -/
theorem format_number_spec (fix1 : Int → Int → String) (num : Int) :
    (num ≥ 1000000000 →
      CountTokens.format_number fix1 num = fix1 num 1000000000 ++ "B") ∧
    (num ≥ 1000000 → num < 1000000000 →
      CountTokens.format_number fix1 num = fix1 num 1000000 ++ "M") ∧
    (num ≥ 1000 → num < 1000000 →
      CountTokens.format_number fix1 num = fix1 num 1000 ++ "K") ∧
    (num < 1000 → CountTokens.format_number fix1 num = toString num) ∧
    CountTokens.format_number fix1Exact 1500000 = "1.5M" ∧
    CountTokens.format_number fix1Exact 999 = "999" ∧
    CountTokens.format_number fix1Exact 2300000000 = "2.3B" := by
  refine ⟨?_, ?_, ?_, ?_, by decide, by decide, by decide⟩
  · intro h1
    rw [CountTokens.format_number, if_pos h1]
  · intro h1 h2
    rw [CountTokens.format_number, if_neg (by omega), if_pos h1]
  · intro h1 h2
    rw [CountTokens.format_number, if_neg (by omega), if_neg (by omega),
      if_pos h1]
  · intro h1
    rw [CountTokens.format_number, if_neg (by omega), if_neg (by omega),
      if_neg (by omega)]

/-- Witness for C8: the `M` branch fires for 1_500_000. -/
theorem format_number_spec_w :
    CountTokens.format_number fix1Exact 1500000
      = fix1Exact 1500000 1000000 ++ "M" :=
  (format_number_spec fix1Exact 1500000).2.1 (by decide) (by decide)
